import Mathlib

/-!
Shallow embedding of `src/mailbot/mailbot.py` (class `MailBot`) and proofs
about its processing-state machine, timeout reaper, callback dispatch and
orchestration cycle.

Modelling conventions:
* Message uids, raw payloads and parsed messages are natural numbers.
* The IMAP gateway is a parameter: the results of `client.search` and
  `client.fetch` are inputs to each modelled method, and the gateway-mutating
  calls (`add_flags`, `remove_flags`) together with the log calls are recorded
  in an event trace, in program order.
* Python exceptions are modelled with `Except` / an error component; an
  unhandled exception aborts the modelled method, returning the trace of
  side effects that happened before the raise.
* `mark_unseen(uid)` executes `remove_flags([uid], ...)`: the argument `uid`
  may itself be a list (the reaper passes `to_reset`), so the id collection
  handed to the gateway is a list of `UidArg`s, where a `UidArg` is either a
  single uid or a list of uids.
* Timestamps (`INTERNALDATE`, `datetime.utcnow()`, the timeout) are integers
  (seconds); `date_pivot = now - timeout` and the comparison
  `INTERNALDATE < date_pivot` mirror the source.
-/

namespace MailBot

/-- A message uid (`use_uid=True`: gateway-assigned identifier). -/
abbrev Uid := Nat

/-- Raw RFC822 payload, abstract. -/
abbrev Raw := Nat

/-- A parsed message (result of `email.message_from_string`), abstract. -/
abbrev Msg := Nat

/-- The two IMAP flags the system uses: `\Seen` and `\Flagged`. -/
inductive Flag
  | seen
  | flagged
deriving DecidableEq, Repr

/-- The per-message flag state persisted by the gateway. -/
structure Flags where
  seen : Bool
  flagged : Bool
deriving DecidableEq, Repr

/-- Set one flag. -/
def setFlag : Flag → Flags → Flags
  | .seen, f => { f with seen := true }
  | .flagged, f => { f with flagged := true }

/-- Clear one flag. -/
def clearFlag : Flag → Flags → Flags
  | .seen, f => { f with seen := false }
  | .flagged, f => { f with flagged := false }

/-- Effect of a gateway `add_flags(_, fs)` call on one message's flags. -/
def applyAdd (fs : List Flag) (f : Flags) : Flags :=
  fs.foldl (fun a fl => setFlag fl a) f

/-- Effect of a gateway `remove_flags(_, fs)` call on one message's flags. -/
def applyRemove (fs : List Flag) (f : Flags) : Flags :=
  fs.foldl (fun a fl => clearFlag fl a) f

/-- The invalid / unreachable flag combination `Seen=false, Flagged=true`. -/
def bad (f : Flags) : Prop := f.seen = false ∧ f.flagged = true

instance (f : Flags) : Decidable (bad f) := by
  unfold bad; infer_instance

/-- One element of the id collection passed to `add_flags`/`remove_flags`.
In the source the `uid` argument of `mark_unseen` is wrapped as `[uid]`;
since the reaper passes a whole Python list as `uid`, an element is either
a single uid or a list of uids. -/
inductive UidArg
  | single (i : Uid)
  | many (l : List Uid)
deriving DecidableEq, Repr

/-- Payload of a gateway-raised exception (network/protocol error), abstract. -/
inductive GErr
  | netErr (code : Nat)
deriving DecidableEq, Repr

/-- Payload of an exception raised by a callback's `check_rules` or `trigger`. -/
inductive CbErr
  | cbErr (code : Nat)
deriving DecidableEq, Repr

/-- Exceptions escaping a modelled `MailBot` method. -/
inductive PyErr
  /-- Python `UnboundLocalError`: a local read before any assignment. -/
  | unboundLocal
  /-- The `Exception(error_msg)` re-raised by `get_messages`, whose message
  embeds the original exception args and the attempted id set. -/
  | wrapped (e : GErr) (ids : List Uid)
  /-- A callback exception propagating uncaught out of `process_messages`. -/
  | cbError (e : CbErr)
deriving DecidableEq, Repr

/-- Observable side effects, recorded in program order. -/
inductive Ev
  /-- `client.add_flags(uids, fs)` -/
  | addFlags (uids : List UidArg) (fs : List Flag)
  /-- `client.remove_flags(uids, fs)` -/
  | removeFlags (uids : List UidArg) (fs : List Flag)
  /-- `log.info(...)` on a successful parse of the message with this uid. -/
  | logInfo (uid : Uid)
  /-- `log.error(error_msg)` in `process_messages`: the message embeds the
  raw payload and the uid. -/
  | logErrorParse (raw : Raw) (uid : Uid)
  /-- `log.error(error_msg)` in `get_messages`: the message embeds the
  exception args and the attempted id set. -/
  | logErrorFetch (e : GErr) (ids : List Uid)
  /-- Invocation of `check_rules` on the callback at registration index
  `cb`, constructed over message `m` (`None` is `none`). -/
  | cbCheck (cb : Nat) (m : Option Msg)
  /-- Invocation of `trigger` on the callback at registration index `cb`. -/
  | cbTrigger (cb : Nat) (m : Option Msg)
deriving DecidableEq, Repr

/-- `mark_processing(uid)`: `add_flags([uid], ['\Flagged', '\Seen'])`. -/
def mark_processing (uid : UidArg) : Ev :=
  .addFlags [uid] [.flagged, .seen]

/-- `mark_processed(uid)`: `remove_flags([uid], ['\Flagged'])` then
`add_flags([uid], ['\Seen'])` — two gateway calls. -/
def mark_processed_calls (uid : UidArg) : List Ev :=
  [.removeFlags [uid] [.flagged], .addFlags [uid] [.seen]]

/-- `mark_unseen(uid)`: `remove_flags([uid], ['\Flagged', '\Seen'])`. -/
def mark_unseen (uid : UidArg) : Ev :=
  .removeFlags [uid] [.flagged, .seen]

/-- A registered callback class: constructing it over an (optional) message
and its rules yields an object with `check_rules` and `trigger`, either of
which may raise. The rule payload is opaque, so it is folded into the
functions. -/
structure Callback where
  check : Option Msg → Except CbErr Bool
  trig : Option Msg → Except CbErr Unit

/-- `process_message(message, callback_class, rules)`: construct the callback,
call `check_rules()`, and if it returns true call `trigger()`. `idx` is the
callback's registration index, used only to tag trace events. Returns the
trace and the exception, if one escaped. -/
def process_message (idx : Nat) (cb : Callback) (m : Option Msg) :
    List Ev × Option CbErr :=
  match cb.check m with
  | .error e => ([.cbCheck idx m], some e)
  | .ok false => ([.cbCheck idx m], none)
  | .ok true =>
    match cb.trig m with
    | .error e => ([.cbCheck idx m, .cbTrigger idx m], some e)
    | .ok _ => ([.cbCheck idx m, .cbTrigger idx m], none)

/-- The `for callback_class, rules in CALLBACKS_MAP.items()` loop of
`process_messages`, from registration index `k` on: each pair is handed to
`process_message`; an exception aborts the loop and propagates. -/
def dispatchFrom (k : Nat) (m : Option Msg) :
    List Callback → List Ev × Option CbErr
  | [] => ([], none)
  | cb :: rest =>
    match process_message k cb m with
    | (tr, some e) => (tr, some e)
    | (tr, none) =>
      match dispatchFrom (k + 1) m rest with
      | (tr2, r2) => (tr ++ tr2, r2)

/-- The whole callback loop for one message. -/
def dispatch (cbs : List Callback) (m : Option Msg) : List Ev × Option CbErr :=
  dispatchFrom 0 m cbs

/-- The body of `process_messages`' per-message loop for one `(uid, msg)`
pair: `message = None`; try `mark_processing`, parse, `log.info`; on
exception `log.error` and `mark_unseen`; then the callback loop (run in
either case, over `message`); finally `mark_processed` if `message` is not
`None`. A callback exception escapes. -/
def processOneMessage (parse : Raw → Option Msg) (cbs : List Callback)
    (uid : Uid) (raw : Raw) : List Ev × Option CbErr :=
  match parse raw with
  | some m =>
    match dispatch cbs (some m) with
    | (dtr, some e) => ([mark_processing (.single uid), .logInfo uid] ++ dtr, some e)
    | (dtr, none) =>
      ([mark_processing (.single uid), .logInfo uid] ++ dtr
        ++ mark_processed_calls (.single uid), none)
  | none =>
    match dispatch cbs none with
    | (dtr, r) =>
      ([mark_processing (.single uid), .logErrorParse raw uid,
        mark_unseen (.single uid)] ++ dtr, r)

/-- The `for uid, msg in messages.items()` loop of `process_messages`. -/
def processLoop (parse : Raw → Option Msg) (cbs : List Callback) :
    List (Uid × Raw) → List Ev × Option CbErr
  | [] => ([], none)
  | (uid, raw) :: rest =>
    match processOneMessage parse cbs uid raw with
    | (tr, some e) => (tr, some e)
    | (tr, none) =>
      match processLoop parse cbs rest with
      | (tr2, r2) => (tr ++ tr2, r2)

/-- `get_messages`: `ids = self.get_message_ids()` then
`self.client.fetch(ids, ['RFC822'])` inside a `try`. The handler builds
`error_msg` from `e.args` and `ids`; when the search itself raised, `ids`
was never assigned, so the handler raises `UnboundLocalError` before
logging. `searchU` is the gateway's answer to `search(['Unseen',
'Unflagged'])`, `fetchU` its answer to the bulk `fetch`. -/
def get_messages (searchU : Except GErr (List Uid))
    (fetchU : List Uid → Except GErr (List (Uid × Raw))) :
    List Ev × Except PyErr (List (Uid × Raw)) :=
  match searchU with
  | .error _ => ([], .error .unboundLocal)
  | .ok ids =>
    match fetchU ids with
    | .ok msgs => ([], .ok msgs)
    | .error e => ([.logErrorFetch e ids], .error (.wrapped e ids))

/-- `reset_timeout_messages`: return if `timeout is None`; otherwise
`ids = search(['Flagged', 'Seen'])` (here `searchP`, which the code guards
against being `None`); `messages = fetch(ids, ['INTERNALDATE'])` only when
`ids is not None` (`idate` gives each uid's `INTERNALDATE`, and a fetch
result is a dict, never `None`); `to_reset` is assigned only when
`messages is not None`, so when the search returned `None` the final
`if to_reset:` reads an unbound local. Returns the trace and the list of
ids that were reset. -/
def reset_timeout_messages (timeout : Option Int) (searchP : Option (List Uid))
    (idate : Uid → Int) (now : Int) : List Ev × Except PyErr (List Uid) :=
  match timeout with
  | none => ([], .ok [])
  | some d =>
    match searchP with
    | none => ([], .error .unboundLocal)
    | some ids =>
      let date_pivot := now - d
      let to_reset := ids.filter (fun i => idate i < date_pivot)
      if to_reset.isEmpty then ([], .ok [])
      else ([mark_unseen (.many to_reset)], .ok to_reset)

/-- `process_messages`: run the reaper, fetch the candidate messages, then
the per-message loop. Exceptions from the reaper, from `get_messages` or
from a callback propagate to the caller. -/
def process_messages (timeout : Option Int) (searchP : Option (List Uid))
    (idate : Uid → Int) (now : Int) (searchU : Except GErr (List Uid))
    (fetchU : List Uid → Except GErr (List (Uid × Raw)))
    (parse : Raw → Option Msg) (cbs : List Callback) :
    List Ev × Except PyErr Unit :=
  match reset_timeout_messages timeout searchP idate now with
  | (tr1, .error e) => (tr1, .error e)
  | (tr1, .ok _) =>
    match get_messages searchU fetchU with
    | (tr2, .error e) => (tr1 ++ tr2, .error e)
    | (tr2, .ok msgs) =>
      match processLoop parse cbs msgs with
      | (tr3, some e) => (tr1 ++ tr2 ++ tr3, .error (.cbError e))
      | (tr3, none) => (tr1 ++ tr2 ++ tr3, .ok ())

/-! Set-level flag semantics, for the state-machine contract of §4.1: the
gateway applies an `add_flags`/`remove_flags` call to every id in the
given set. -/

/-- Gateway semantics of `add_flags(ids, fs)` over a mailbox flag state. -/
def addFlagsSt (ids : List Uid) (fs : List Flag) (st : Uid → Flags) :
    Uid → Flags :=
  fun i => if i ∈ ids then applyAdd fs (st i) else st i

/-- Gateway semantics of `remove_flags(ids, fs)`. -/
def removeFlagsSt (ids : List Uid) (fs : List Flag) (st : Uid → Flags) :
    Uid → Flags :=
  fun i => if i ∈ ids then applyRemove fs (st i) else st i

/-- `markProcessing` over an id set: `add_flags(ids, ['\Flagged','\Seen'])`. -/
def markProcessingS (ids : List Uid) (st : Uid → Flags) : Uid → Flags :=
  addFlagsSt ids [.flagged, .seen] st

/-- `markProcessed` over an id set: remove `\Flagged`, then add `\Seen`. -/
def markProcessedS (ids : List Uid) (st : Uid → Flags) : Uid → Flags :=
  addFlagsSt ids [.seen] (removeFlagsSt ids [.flagged] st)

/-- `markUnprocessed` over an id set: `remove_flags(ids, ['\Flagged','\Seen'])`. -/
def markUnseenS (ids : List Uid) (st : Uid → Flags) : Uid → Flags :=
  removeFlagsSt ids [.flagged, .seen] st

/-- The flag-state effect of one trace event on one message's flags (events
that are not gateway flag calls leave flags unchanged). -/
def flagStep (ev : Ev) (f : Flags) : Flags :=
  match ev with
  | .addFlags _ fs => applyAdd fs f
  | .removeFlags _ fs => applyRemove fs f
  | _ => f

/-- Whether an event is a gateway flag mutation. -/
def isFlagEv : Ev → Bool
  | .addFlags _ _ => true
  | .removeFlags _ _ => true
  | _ => false

/-- Whether an event mentions uid `i` in its id collection. -/
def evMentions (ev : Ev) (i : Uid) : Bool :=
  match ev with
  | .addFlags uids _ =>
    uids.any fun u => match u with
      | .single j => j = i
      | .many l => l.contains i
  | .removeFlags uids _ =>
    uids.any fun u => match u with
      | .single j => j = i
      | .many l => l.contains i
  | _ => false

/-! ### Trace lemmas shared by several claims -/

/-- The shapes of gateway flag calls the source can issue: `mark_processing`
adds `[\Flagged, \Seen]`, `mark_processed` removes `[\Flagged]` then adds
`[\Seen]`, `mark_unseen` removes `[\Flagged, \Seen]`. -/
def goodCall (ev : Ev) : Prop :=
  match ev with
  | .addFlags _ fs => fs = [Flag.flagged, Flag.seen] ∨ fs = [Flag.seen]
  | .removeFlags _ fs => fs = [Flag.flagged] ∨ fs = [Flag.flagged, Flag.seen]
  | _ => True

/-- Every flag call the source can issue maps an arbitrary starting flag
state to a state other than `(Seen=false, Flagged=true)`. -/
theorem goodCall_safe (ev : Ev) (h : goodCall ev) (hf : isFlagEv ev = true)
    (f : Flags) : ¬ bad (flagStep ev f) := by
  rcases f with ⟨s, fl⟩
  cases ev with
  | addFlags uids fs =>
    rcases h with h | h <;> subst h <;>
      cases s <;> cases fl <;>
        simp [flagStep, applyAdd, setFlag, bad]
  | removeFlags uids fs =>
    rcases h with h | h <;> subst h <;>
      cases s <;> cases fl <;>
        simp [flagStep, applyRemove, clearFlag, bad]
  | logInfo uid => simp [isFlagEv] at hf
  | logErrorParse raw uid => simp [isFlagEv] at hf
  | logErrorFetch e ids => simp [isFlagEv] at hf
  | cbCheck cb m => simp [isFlagEv] at hf
  | cbTrigger cb m => simp [isFlagEv] at hf

/-- `process_message` emits only callback-invocation events. -/
theorem process_message_noflag (idx : Nat) (cb : Callback) (m : Option Msg) :
    ∀ ev ∈ (process_message idx cb m).1, isFlagEv ev = false := by
  intro ev hev
  unfold process_message at hev
  rcases hc : cb.check m with e | b
  · rw [hc] at hev
    simp at hev
    subst hev; rfl
  · rw [hc] at hev
    cases b
    · simp at hev
      subst hev; rfl
    · rcases ht : cb.trig m with e | u <;> rw [ht] at hev <;>
        simp at hev <;> rcases hev with h | h <;> subst h <;> rfl

/-- The callback loop emits only callback-invocation events. -/
theorem dispatchFrom_noflag (m : Option Msg) :
    ∀ (cbs : List Callback) (k : Nat),
      ∀ ev ∈ (dispatchFrom k m cbs).1, isFlagEv ev = false := by
  intro cbs
  induction cbs with
  | nil =>
    intro k ev hev
    simp [dispatchFrom] at hev
  | cons cb rest ih =>
    intro k ev hev
    unfold dispatchFrom at hev
    rcases hp : process_message k cb m with ⟨tr, r⟩
    rw [hp] at hev
    cases r with
    | some e =>
      exact process_message_noflag k cb m ev (by rw [hp]; exact hev)
    | none =>
      rcases hd : dispatchFrom (k + 1) m rest with ⟨tr2, r2⟩
      rw [hd] at hev
      simp only [List.mem_append] at hev
      rcases hev with h | h
      · exact process_message_noflag k cb m ev (by rw [hp]; exact h)
      · exact ih (k + 1) ev (by rw [hd]; exact h)

/-- `check_rules` is always invoked: the callback's check event is in
`process_message`'s trace. -/
theorem process_message_check_mem (idx : Nat) (cb : Callback) (m : Option Msg) :
    Ev.cbCheck idx m ∈ (process_message idx cb m).1 := by
  unfold process_message
  rcases hc : cb.check m with e | b
  · simp
  · cases b
    · simp
    · rcases ht : cb.trig m with e | u <;> simp

/-- When the callback loop from index `k` finishes without an exception,
every registered callback's `check_rules` was invoked over `m`. -/
theorem dispatchFrom_checks (m : Option Msg) :
    ∀ (cbs : List Callback) (k : Nat), (dispatchFrom k m cbs).2 = none →
      ∀ i < cbs.length, Ev.cbCheck (k + i) m ∈ (dispatchFrom k m cbs).1 := by
  intro cbs
  induction cbs with
  | nil =>
    intro k _ i hi
    simp at hi
  | cons cb rest ih =>
    intro k hok i hi
    have hstep : dispatchFrom k m (cb :: rest)
        = (match process_message k cb m with
           | (tr, some e) => (tr, some e)
           | (tr, none) =>
             match dispatchFrom (k + 1) m rest with
             | (tr2, r2) => (tr ++ tr2, r2)) := rfl
    rcases hp : process_message k cb m with ⟨tr, r⟩
    rcases hd : dispatchFrom (k + 1) m rest with ⟨tr2, r2⟩
    rw [hp, hd] at hstep
    cases r with
    | some e =>
      have hstep' : dispatchFrom k m (cb :: rest) = (tr, some e) := hstep
      rw [hstep'] at hok
      simp at hok
    | none =>
      have hstep' : dispatchFrom k m (cb :: rest) = (tr ++ tr2, r2) := hstep
      rw [hstep'] at hok ⊢
      have hr2 : r2 = none := hok
      show Ev.cbCheck (k + i) m ∈ tr ++ tr2
      rw [List.mem_append]
      cases i with
      | zero =>
        left
        have hm := process_message_check_mem k cb m
        rw [hp] at hm
        simpa using hm
      | succ j =>
        right
        have hj : j < rest.length := by
          simpa [Nat.succ_lt_succ_iff] using hi
        have hmem := ih (k + 1) (by rw [hd]; exact hr2) j hj
        rw [hd] at hmem
        have heq : k + (j + 1) = (k + 1) + j := by omega
        rw [heq]
        simpa using hmem

/-- Splitting the per-message loop after a prefix that completed normally. -/
theorem processLoop_append_ok (parse : Raw → Option Msg) (cbs : List Callback)
    (pre : List (Uid × Raw)) (tr : List Ev)
    (h : processLoop parse cbs pre = (tr, none)) (xs : List (Uid × Raw)) :
    processLoop parse cbs (pre ++ xs)
      = (tr ++ (processLoop parse cbs xs).1, (processLoop parse cbs xs).2) := by
  induction pre generalizing tr with
  | nil =>
    simp only [processLoop] at h
    obtain ⟨rfl, -⟩ := Prod.mk.injEq .. ▸ (Prod.mk.injEq .. ▸ h)
    simp
  | cons p pre' ih =>
    rcases p with ⟨uid, raw⟩
    simp only [processLoop] at h
    rcases h1 : processOneMessage parse cbs uid raw with ⟨tr1, r1⟩
    rw [h1] at h
    cases r1 with
    | some e => simp at h
    | none =>
      rcases h2 : processLoop parse cbs pre' with ⟨tr2, r2⟩
      rw [h2] at h
      have h' : (tr1 ++ tr2, r2) = (tr, none) := h
      injection h' with hA hB
      subst hB
      have hIH := ih tr2 h2
      have hcons : processLoop parse cbs (((uid, raw) :: pre') ++ xs)
          = (tr1 ++ (processLoop parse cbs (pre' ++ xs)).1,
             (processLoop parse cbs (pre' ++ xs)).2) := by
        simp only [List.cons_append, processLoop, h1, List.append_eq]
      rw [hcons, hIH]
      subst hA
      simp [List.append_assoc]

/-- Events that are not gateway flag calls are vacuously good. -/
theorem goodCall_of_not_flag (ev : Ev) (h : isFlagEv ev = false) : goodCall ev := by
  cases ev with
  | addFlags uids fs => simp [isFlagEv] at h
  | removeFlags uids fs => simp [isFlagEv] at h
  | logInfo uid => trivial
  | logErrorParse raw uid => trivial
  | logErrorFetch e ids => trivial
  | cbCheck cb m => trivial
  | cbTrigger cb m => trivial

/-- Unfolding `processOneMessage` when the parse fails. -/
theorem processOneMessage_none_eq (parse : Raw → Option Msg) (cbs : List Callback)
    (uid : Uid) (raw : Raw) (hp : parse raw = none) :
    processOneMessage parse cbs uid raw
      = ([mark_processing (.single uid), .logErrorParse raw uid,
          mark_unseen (.single uid)] ++ (dispatch cbs none).1,
         (dispatch cbs none).2) := by
  unfold processOneMessage
  rw [hp]

/-- Unfolding `processOneMessage` when the parse succeeds. -/
theorem processOneMessage_some_eq (parse : Raw → Option Msg) (cbs : List Callback)
    (uid : Uid) (raw : Raw) (m : Msg) (hp : parse raw = some m) :
    processOneMessage parse cbs uid raw
      = (match dispatch cbs (some m) with
         | (dtr, some e) => ([mark_processing (.single uid), .logInfo uid] ++ dtr, some e)
         | (dtr, none) =>
           ([mark_processing (.single uid), .logInfo uid] ++ dtr
             ++ mark_processed_calls (.single uid), none)) := by
  unfold processOneMessage
  rw [hp]

/-- Every event of one message's processing is a good call. -/
theorem processOneMessage_good (parse : Raw → Option Msg) (cbs : List Callback)
    (uid : Uid) (raw : Raw) :
    ∀ ev ∈ (processOneMessage parse cbs uid raw).1, goodCall ev := by
  intro ev hev
  rcases hp : parse raw with _ | m
  · rw [processOneMessage_none_eq parse cbs uid raw hp] at hev
    simp only [List.cons_append, List.nil_append, List.mem_cons] at hev
    rcases hev with h | h | h | h
    · subst h; exact Or.inl rfl
    · subst h; trivial
    · subst h; exact Or.inr rfl
    · exact goodCall_of_not_flag ev (dispatchFrom_noflag none cbs 0 ev h)
  · rw [processOneMessage_some_eq parse cbs uid raw m hp] at hev
    rcases hd : dispatch cbs (some m) with ⟨dtr, r⟩
    rw [hd] at hev
    have hd0 : dispatchFrom 0 (some m) cbs = (dtr, r) := hd
    cases r with
    | some e =>
      simp only [List.cons_append, List.nil_append, List.mem_cons] at hev
      rcases hev with h | h | h
      · subst h; exact Or.inl rfl
      · subst h; trivial
      · exact goodCall_of_not_flag ev
          (dispatchFrom_noflag (some m) cbs 0 ev (by rw [hd0]; exact h))
    | none =>
      simp only [mark_processed_calls, List.cons_append, List.nil_append,
        List.append_assoc, List.mem_cons, List.mem_append, List.not_mem_nil,
        or_false] at hev
      rcases hev with h | h | h | h | h
      · subst h; exact Or.inl rfl
      · subst h; trivial
      · exact goodCall_of_not_flag ev
          (dispatchFrom_noflag (some m) cbs 0 ev (by rw [hd0]; exact h))
      · subst h; exact Or.inl rfl
      · subst h; exact Or.inr rfl

/-- Every event of the per-message loop is a good call. -/
theorem processLoop_good (parse : Raw → Option Msg) (cbs : List Callback) :
    ∀ (msgs : List (Uid × Raw)), ∀ ev ∈ (processLoop parse cbs msgs).1, goodCall ev := by
  intro msgs
  induction msgs with
  | nil =>
    intro ev hev
    simp [processLoop] at hev
  | cons p rest ih =>
    rcases p with ⟨uid, raw⟩
    intro ev hev
    simp only [processLoop] at hev
    rcases h1 : processOneMessage parse cbs uid raw with ⟨tr1, r1⟩
    rw [h1] at hev
    cases r1 with
    | some e =>
      exact processOneMessage_good parse cbs uid raw ev (by rw [h1]; exact hev)
    | none =>
      rcases h2 : processLoop parse cbs rest with ⟨tr2, r2⟩
      rw [h2] at hev
      simp only [List.mem_append] at hev
      rcases hev with h | h
      · exact processOneMessage_good parse cbs uid raw ev (by rw [h1]; exact h)
      · exact ih ev (by rw [h2]; exact h)

/-- Every event of the reaper is a good call. -/
theorem reset_timeout_good (timeout : Option Int) (searchP : Option (List Uid))
    (idate : Uid → Int) (now : Int) :
    ∀ ev ∈ (reset_timeout_messages timeout searchP idate now).1, goodCall ev := by
  intro ev hev
  cases timeout with
  | none => simp [reset_timeout_messages] at hev
  | some d =>
    cases searchP with
    | none => simp [reset_timeout_messages] at hev
    | some ids =>
      simp only [reset_timeout_messages] at hev
      by_cases he : (ids.filter (fun i => idate i < now - d)).isEmpty
      · rw [if_pos he] at hev
        simp at hev
      · rw [if_neg he] at hev
        simp only [List.mem_cons, List.not_mem_nil, or_false] at hev
        subst hev
        exact Or.inr rfl

/-- Every event of `get_messages` is a good call. -/
theorem get_messages_good (searchU : Except GErr (List Uid))
    (fetchU : List Uid → Except GErr (List (Uid × Raw))) :
    ∀ ev ∈ (get_messages searchU fetchU).1, goodCall ev := by
  intro ev hev
  rcases searchU with e | ids
  · simp [get_messages] at hev
  · rcases hf : fetchU ids with e | msgs
    · have heq : get_messages (.ok ids) fetchU
          = ([Ev.logErrorFetch e ids], .error (.wrapped e ids)) := by
        simp [get_messages, hf]
      rw [heq] at hev
      simp at hev
      subst hev
      trivial
    · have heq : get_messages (.ok ids) fetchU = ([], .ok msgs) := by
        simp [get_messages, hf]
      rw [heq] at hev
      simp at hev

/-- Every event of a whole processing cycle is a good call. -/
theorem process_messages_good (timeout : Option Int) (searchP : Option (List Uid))
    (idate : Uid → Int) (now : Int) (searchU : Except GErr (List Uid))
    (fetchU : List Uid → Except GErr (List (Uid × Raw)))
    (parse : Raw → Option Msg) (cbs : List Callback) :
    ∀ ev ∈ (process_messages timeout searchP idate now searchU fetchU parse cbs).1,
      goodCall ev := by
  intro ev hev
  rcases hr : reset_timeout_messages timeout searchP idate now with ⟨tr1, r1⟩
  cases r1 with
  | error e =>
    have heq : process_messages timeout searchP idate now searchU fetchU parse cbs
        = (tr1, .error e) := by
      simp [process_messages, hr]
    rw [heq] at hev
    exact reset_timeout_good timeout searchP idate now ev (by rw [hr]; exact hev)
  | ok l =>
    rcases hg : get_messages searchU fetchU with ⟨tr2, r2⟩
    cases r2 with
    | error e =>
      have heq : process_messages timeout searchP idate now searchU fetchU parse cbs
          = (tr1 ++ tr2, .error e) := by
        simp [process_messages, hr, hg]
      rw [heq] at hev
      simp only [List.mem_append] at hev
      rcases hev with h | h
      · exact reset_timeout_good timeout searchP idate now ev (by rw [hr]; exact h)
      · exact get_messages_good searchU fetchU ev (by rw [hg]; exact h)
    | ok msgs =>
      rcases hl : processLoop parse cbs msgs with ⟨tr3, r3⟩
      have heq : (process_messages timeout searchP idate now searchU fetchU parse cbs).1
          = tr1 ++ tr2 ++ tr3 := by
        cases r3 <;> simp [process_messages, hr, hg, hl]
      rw [heq] at hev
      simp only [List.mem_append] at hev
      rcases hev with (h | h) | h
      · exact reset_timeout_good timeout searchP idate now ev (by rw [hr]; exact h)
      · exact get_messages_good searchU fetchU ev (by rw [hg]; exact h)
      · exact processLoop_good parse cbs msgs ev (by rw [hl]; exact h)

/-! ### Claim C6: the invalid flag combination is never produced -/

/-- C6: no core operation ever produces the flag combination
`Seen=false, Flagged=true`: every gateway flag call issued anywhere in a full
processing cycle, in a reaper run, or by `markProcessing` / `markProcessed` /
`markUnprocessed` themselves, maps every starting flag state to a state
other than `(Seen=false, Flagged=true)`. -/
theorem mailbot_C6_invalid_state_unreachable (timeout : Option Int)
    (searchP : Option (List Uid)) (idate : Uid → Int) (now : Int)
    (searchU : Except GErr (List Uid))
    (fetchU : List Uid → Except GErr (List (Uid × Raw)))
    (parse : Raw → Option Msg) (cbs : List Callback) (u : UidArg) (ev : Ev)
    (hev : ev ∈ (process_messages timeout searchP idate now searchU fetchU parse cbs).1
      ∨ ev ∈ (reset_timeout_messages timeout searchP idate now).1
      ∨ ev ∈ mark_processing u :: mark_unseen u :: mark_processed_calls u)
    (hf : isFlagEv ev = true) (f : Flags) :
    ¬ bad (flagStep ev f) := by
  refine goodCall_safe ev ?_ hf f
  rcases hev with h | h | h
  · exact process_messages_good timeout searchP idate now searchU fetchU parse cbs ev h
  · exact reset_timeout_good timeout searchP idate now ev h
  · simp only [mark_processing, mark_unseen, mark_processed_calls,
      List.mem_cons, List.not_mem_nil, or_false] at h
    rcases h with h | h | h | h <;> subst h
    · exact Or.inl rfl
    · exact Or.inr rfl
    · exact Or.inl rfl
    · exact Or.inr rfl

/-- Witness for C6: the `mark_processing` call of a real one-message cycle,
applied to the invalid combination itself. -/
theorem mailbot_C6_invalid_state_unreachable_witness :
    ¬ bad (flagStep (Ev.addFlags [UidArg.single 1] [Flag.flagged, Flag.seen])
      (Flags.mk false true)) :=
  mailbot_C6_invalid_state_unreachable none none (fun _ => 0) 0 (.ok [1])
    (fun _ => .ok [(1, 5)]) (fun r => some r) [] (UidArg.single 1)
    (Ev.addFlags [UidArg.single 1] [Flag.flagged, Flag.seen])
    (Or.inl (by decide)) (by decide) (Flags.mk false true)

/-! ### Claim C5, C8, C9, C10: direct evaluations of the embedded methods -/

/-- C5: when the reaper runs with a configured timeout and the gateway search
for Processing messages returns no candidates (the empty id list), the reaper
is a no-op: its trace is empty (no flag mutation) and it returns normally
(no exception). -/
theorem mailbot_C5_reaper_noop_on_empty (d : Int) (idate : Uid → Int) (now : Int) :
    reset_timeout_messages (some d) (some []) idate now = ([], .ok []) := rfl

/-- C8: for every id set and every starting mailbox flag state,
`markProcessing` then `markProcessed` leaves each message of the set with
Seen=true, Flagged=false (and every other message untouched); and
`markUnprocessed` is idempotent: applying it twice yields the same flags as
applying it once. -/
theorem mailbot_C8_mark_algebra (ids : List Uid) (st : Uid → Flags) (i : Uid) :
    markProcessedS ids (markProcessingS ids st) i
      = (if i ∈ ids then Flags.mk true false else st i) ∧
    markUnseenS ids (markUnseenS ids st) i = markUnseenS ids st i := by
  constructor
  · simp only [markProcessedS, markProcessingS, addFlagsSt, removeFlagsSt]
    split_ifs with h <;>
      simp [applyAdd, applyRemove, setFlag, clearFlag]
  · simp only [markUnseenS, removeFlagsSt]
    split_ifs with h <;>
      simp [applyRemove, clearFlag]

/-- C9: if the gateway search inside `get_messages` itself raises, the
`except` handler reads the never-assigned local `ids` while building the
error message, so nothing is logged (empty trace) and the caller receives an
`UnboundLocalError` instead of an exception wrapped with the attempted id
set. -/
theorem mailbot_C9_search_raise_unbound (e : GErr)
    (fetchU : List Uid → Except GErr (List (Uid × Raw))) :
    get_messages (.error e) fetchU = ([], .error .unboundLocal) := rfl

/-- C10: if the gateway search inside the reaper returns `None`, then
`messages` stays `None`, `to_reset` is never assigned, and the final
`if to_reset:` raises an `UnboundLocalError`. -/
theorem mailbot_C10_reaper_none_unbound (d : Int) (idate : Uid → Int) (now : Int) :
    reset_timeout_messages (some d) none idate now = ([], .error .unboundLocal) := rfl

/-! ### Claim C4: the reaper hands the gateway a nested id list -/

/-- C4: whenever the reaper finds at least one expired Processing message, it
calls `mark_unseen` with the entire `to_reset` list as its single uid
argument, so the id collection handed to the gateway's `remove_flags` is a
one-element list whose only element is the list of expired ids. -/
theorem mailbot_C4_nested_uid_list (d : Int) (ids : List Uid) (idate : Uid → Int)
    (now : Int)
    (h : ids.filter (fun i => idate i < now - d) ≠ []) :
    (reset_timeout_messages (some d) (some ids) idate now).1
      = [mark_unseen (UidArg.many (ids.filter (fun i => idate i < now - d)))] ∧
    mark_unseen (UidArg.many (ids.filter (fun i => idate i < now - d)))
      = Ev.removeFlags [UidArg.many (ids.filter (fun i => idate i < now - d))]
          [Flag.flagged, Flag.seen] := by
  refine ⟨?_, rfl⟩
  simp only [reset_timeout_messages]
  rw [if_neg (by simpa [List.isEmpty_iff] using h)]

/-- Witness for C4 at a concrete input: timeout 0, one Processing message
with uid 3 and arrival time −1 at now = 0. -/
theorem mailbot_C4_nested_uid_list_witness :
    (reset_timeout_messages (some 0) (some [3]) (fun _ => -1) 0).1
      = [Ev.removeFlags [UidArg.many [3]] [Flag.flagged, Flag.seen]] := by
  have h := mailbot_C4_nested_uid_list 0 [3] (fun _ => -1) 0 (by decide)
  exact h.1.trans (by decide)

/-! ### Claim C7: bulk fetch failure is fatal to the cycle -/

/-- C7: if the bulk fetch of candidate contents fails, `get_messages` logs
the error together with the attempted id set and re-raises it wrapped with
that id set; consequently a cycle whose reaper ran normally ends in that
wrapped error, its trace being the reaper's trace plus the fetch-error log
entry — no per-message processing happens, so the cycle never proceeds with
a partial result. -/
theorem mailbot_C7_fetch_failure_fatal (ids : List Uid)
    (fetchU : List Uid → Except GErr (List (Uid × Raw))) (e : GErr)
    (h : fetchU ids = .error e)
    (timeout : Option Int) (searchP : Option (List Uid)) (idate : Uid → Int)
    (now : Int) (parse : Raw → Option Msg) (cbs : List Callback)
    (rtr : List Ev) (l : List Uid)
    (hr : reset_timeout_messages timeout searchP idate now = (rtr, .ok l)) :
    get_messages (.ok ids) fetchU
      = ([Ev.logErrorFetch e ids], .error (.wrapped e ids)) ∧
    process_messages timeout searchP idate now (.ok ids) fetchU parse cbs
      = (rtr ++ [Ev.logErrorFetch e ids], .error (.wrapped e ids)) := by
  have hg : get_messages (.ok ids) fetchU
      = ([Ev.logErrorFetch e ids], .error (.wrapped e ids)) := by
    simp [get_messages, h]
  refine ⟨hg, ?_⟩
  simp [process_messages, hr, hg]

/-- Witness for C7 at a concrete input: candidate ids [1, 2], a fetch that
raises a network error, reaper disabled (`timeout=None`). -/
theorem mailbot_C7_fetch_failure_fatal_witness :
    process_messages none none (fun _ => 0) 0 (.ok [1, 2])
        (fun _ => .error (.netErr 7)) (fun _ => none) []
      = ([Ev.logErrorFetch (.netErr 7) [1, 2]],
         .error (.wrapped (.netErr 7) [1, 2])) := by
  have h := mailbot_C7_fetch_failure_fatal [1, 2]
      (fun _ => Except.error (GErr.netErr 7)) (.netErr 7) rfl
      none none (fun _ => 0) 0 (fun _ => none) [] [] [] rfl
  simpa using h.2

/-! ### Claim C3: the reaper's timeout comparison is strict -/

/-- C3 counterexample: a Processing message whose age equals the timeout
exactly (`now − T = D`, here `10 − 5 = 5 ≥ 5`) is NOT reset: the reaper's
trace is empty and no id is reset, because the source compares
`INTERNALDATE < date_pivot` strictly. -/
theorem mailbot_C3_boundary_not_reset :
    (10 : Int) - 5 ≥ 5 ∧
    reset_timeout_messages (some 5) (some [1]) (fun _ => 5) 10 = ([], .ok []) := by
  constructor
  · decide
  · rfl

/-- C3 (amended): for every Processing message with arrival timestamp `T`,
when the reaper runs with timeout `D` at time `now`, the message is reset to
Unprocessed iff `now − T > D` (strictly); every message with `now − T ≤ D`
is left untouched (no trace event mentions it). -/
theorem mailbot_C3_strict_timeout (d : Int) (ids : List Uid) (idate : Uid → Int)
    (now : Int) (i : Uid) (hi : i ∈ ids) :
    (∃ l, (reset_timeout_messages (some d) (some ids) idate now).2 = .ok l ∧
      (i ∈ l ↔ now - idate i > d)) ∧
    (now - idate i ≤ d →
      ∀ ev ∈ (reset_timeout_messages (some d) (some ids) idate now).1,
        evMentions ev i = false) := by
  simp only [reset_timeout_messages]
  by_cases he : (ids.filter (fun j => idate j < now - d)).isEmpty
  · rw [if_pos he]
    have hnil : ids.filter (fun j => idate j < now - d) = [] := by
      simpa [List.isEmpty_iff] using he
    have hni : ¬ (idate i < now - d) := by
      intro hlt
      have : i ∈ ids.filter (fun j => idate j < now - d) :=
        List.mem_filter.mpr ⟨hi, by simpa using hlt⟩
      rw [hnil] at this
      exact absurd this (List.not_mem_nil i)
    refine ⟨⟨[], rfl, ?_⟩, ?_⟩
    · simp only [List.not_mem_nil, false_iff]
      omega
    · intro _ ev hev
      exact absurd hev (List.not_mem_nil ev)
  · rw [if_neg he]
    refine ⟨⟨ids.filter (fun j => idate j < now - d), rfl, ?_⟩, ?_⟩
    · rw [List.mem_filter]
      constructor
      · rintro ⟨-, h⟩
        have := of_decide_eq_true h
        omega
      · intro h
        exact ⟨hi, decide_eq_true (by omega)⟩
    · intro hle ev hev
      have hevq : ev = mark_unseen (UidArg.many (ids.filter (fun j => idate j < now - d))) := by
        simpa using hev
      subst hevq
      have hni : i ∉ ids.filter (fun j => idate j < now - d) := by
        rw [List.mem_filter]
        rintro ⟨-, h⟩
        have := of_decide_eq_true h
        omega
      simp [mark_unseen, evMentions, hni]

/-- Witness for C3 (amended) at a concrete input: timeout 5, now 10, two
Processing messages both with arrival time 0, tracking uid 1 (age 10 > 5). -/
theorem mailbot_C3_strict_timeout_witness :
    (∃ l, (reset_timeout_messages (some 5) (some [1, 2]) (fun _ => 0) 10).2
        = .ok l ∧ (1 ∈ l ↔ (10 : Int) - 0 > 5)) ∧
    ((10 : Int) - 0 ≤ 5 →
      ∀ ev ∈ (reset_timeout_messages (some 5) (some [1, 2]) (fun _ => 0) 10).1,
        evMentions ev 1 = false) :=
  mailbot_C3_strict_timeout 5 [1, 2] (fun _ => 0) 10 1 (by decide)

/-! ### Claims C1 and C2: parse failure and callback failure in the cycle -/

/-- The callback loop issues no gateway flag calls, so filtering its trace
for flag events gives nothing. -/
theorem dispatch_filter_flag_nil (cbs : List Callback) (m : Option Msg) :
    (dispatch cbs m).1.filter isFlagEv = [] := by
  rw [List.filter_eq_nil_iff]
  intro a ha
  simp [dispatchFrom_noflag m cbs 0 a ha]

/-- C1 counterexample: one fetched message whose payload fails to parse and
one registered callback whose `check_rules` returns False — the cycle still
invokes the callback (its `check_rules` runs, over `None`) for that message,
so "invokes no callback for that message" fails. -/
theorem mailbot_C1_callback_still_invoked :
    Ev.cbCheck 0 none ∈
      (process_messages none none (fun _ => 0) 0 (.ok [1])
        (fun _ => .ok [(1, 7)]) (fun _ => none)
        [⟨fun _ => .ok false, fun _ => .ok ()⟩]).1 := by decide

/-- C1 (amended): for every fetched message whose raw content fails to parse,
the orchestrator catches the failure locally, logs it with the raw payload
and uid, reverts the message to Unprocessed via `mark_unseen`, and never
marks it Processed — its flag calls are exactly the claim and the revert —
but the dispatch loop still runs for that message with `message=None`,
invoking every registered callback's `check_rules` on `None`; provided no
callback raises on the `None` message, the loop then continues to the next
fetched message (same trailing trace and same outcome as for the remaining
messages alone). -/
theorem mailbot_C1_parse_failure_recovery (parse : Raw → Option Msg)
    (cbs : List Callback) (uid : Uid) (raw : Raw) (rest : List (Uid × Raw))
    (hparse : parse raw = none)
    (hdisp : (dispatch cbs none).2 = none) :
    (processLoop parse cbs ((uid, raw) :: rest)).1
      = [mark_processing (.single uid), .logErrorParse raw uid,
          mark_unseen (.single uid)] ++ (dispatch cbs none).1
        ++ (processLoop parse cbs rest).1 ∧
    (processLoop parse cbs ((uid, raw) :: rest)).2
      = (processLoop parse cbs rest).2 ∧
    (∀ i < cbs.length,
      Ev.cbCheck i none ∈ (processLoop parse cbs ((uid, raw) :: rest)).1) ∧
    (([mark_processing (.single uid), .logErrorParse raw uid,
        mark_unseen (.single uid)] ++ (dispatch cbs none).1).filter isFlagEv)
      = [mark_processing (.single uid), mark_unseen (.single uid)] := by
  have hone : processOneMessage parse cbs uid raw
      = ([mark_processing (.single uid), .logErrorParse raw uid,
          mark_unseen (.single uid)] ++ (dispatch cbs none).1, none) := by
    rw [processOneMessage_none_eq parse cbs uid raw hparse, hdisp]
  have hloop : processLoop parse cbs ((uid, raw) :: rest)
      = (([mark_processing (.single uid), .logErrorParse raw uid,
          mark_unseen (.single uid)] ++ (dispatch cbs none).1)
            ++ (processLoop parse cbs rest).1,
         (processLoop parse cbs rest).2) := by
    rcases h2 : processLoop parse cbs rest with ⟨tr2, r2⟩
    simp [processLoop, hone, h2]
  refine ⟨by rw [hloop], by rw [hloop], ?_, ?_⟩
  · intro i hi
    rw [hloop]
    have hd0 : (dispatchFrom 0 none cbs).2 = none := hdisp
    have hm := dispatchFrom_checks none cbs 0 hd0 i hi
    rw [Nat.zero_add] at hm
    simp only [List.mem_append]
    exact Or.inl (Or.inr hm)
  · rw [List.filter_append, dispatch_filter_flag_nil]
    simp [mark_processing, mark_unseen, isFlagEv, List.filter]

/-- Witness for C1 (amended): two unparsable messages and one non-matching
callback; both messages are claimed, logged, reverted, and the callback's
check runs on `None` for each. -/
theorem mailbot_C1_parse_failure_recovery_witness :
    (processLoop (fun _ => none)
        [⟨fun _ => Except.ok false, fun _ => Except.ok ()⟩] [(1, 7), (2, 8)]).1
      = [mark_processing (UidArg.single 1), Ev.logErrorParse 7 1,
         mark_unseen (UidArg.single 1), Ev.cbCheck 0 none,
         mark_processing (UidArg.single 2), Ev.logErrorParse 8 2,
         mark_unseen (UidArg.single 2), Ev.cbCheck 0 none] := by
  have h := mailbot_C1_parse_failure_recovery (fun _ => none)
      [⟨fun _ => Except.ok false, fun _ => Except.ok ()⟩] 1 7 [(2, 8)] rfl rfl
  exact h.1.trans (by decide)

/-- C2 counterexample: two fetched messages and one registered callback that
raises during `check_rules`. The exception escapes `process_messages` (the
cycle's caller sees it), and the second, remaining message is never touched —
no event mentions it — refuting "processing of the remaining fetched
messages in the same cycle is not aborted". -/
theorem mailbot_C2_rest_aborted :
    (process_messages none none (fun _ => 0) 0 (.ok [1, 2])
        (fun _ => .ok [(1, 7), (2, 8)]) (fun r => some r)
        [⟨fun _ => .error (.cbErr 3), fun _ => .ok ()⟩]).2
      = .error (.cbError (.cbErr 3)) ∧
    mark_processing (UidArg.single 2) ∉
      (process_messages none none (fun _ => 0) 0 (.ok [1, 2])
        (fun _ => .ok [(1, 7), (2, 8)]) (fun r => some r)
        [⟨fun _ => .error (.cbErr 3), fun _ => .ok ()⟩]).1 ∧
    ((process_messages none none (fun _ => 0) 0 (.ok [1, 2])
        (fun _ => .ok [(1, 7), (2, 8)]) (fun r => some r)
        [⟨fun _ => .error (.cbErr 3), fun _ => .ok ()⟩]).1.all
      fun ev => !(evMentions ev 2)) = true :=
  ⟨rfl, by decide, by decide⟩

/-- C2 (amended): if a registered callback raises during `check_rules` or
`trigger` while a message is being dispatched, the failure propagates out of
`process_messages`, aborting the REST OF THE CYCLE as well: the cycle's
trace ends with the failed message's events (no later message is touched)
and the caller receives the callback's exception; the failed message's only
flag call is `mark_processing`, which sends any flag state to
`(Seen=true, Flagged=true)`, so it stays in Processing until the next
reaper sweep. -/
theorem mailbot_C2_callback_failure_aborts_cycle
    (timeout : Option Int) (searchP : Option (List Uid)) (idate : Uid → Int)
    (now : Int) (searchU : Except GErr (List Uid))
    (fetchU : List Uid → Except GErr (List (Uid × Raw)))
    (parse : Raw → Option Msg) (cbs : List Callback)
    (pre rest : List (Uid × Raw)) (uid : Uid) (raw : Raw) (m : Msg) (e : CbErr)
    (rtr gtr tr : List Ev) (l : List Uid)
    (hr : reset_timeout_messages timeout searchP idate now = (rtr, .ok l))
    (hg : get_messages searchU fetchU = (gtr, .ok (pre ++ (uid, raw) :: rest)))
    (hpre : processLoop parse cbs pre = (tr, none))
    (hparse : parse raw = some m)
    (hdisp : (dispatch cbs (some m)).2 = some e) :
    process_messages timeout searchP idate now searchU fetchU parse cbs
      = (rtr ++ gtr ++ (tr ++ [mark_processing (.single uid), .logInfo uid]
          ++ (dispatch cbs (some m)).1), .error (.cbError e)) ∧
    (([mark_processing (.single uid), .logInfo uid]
        ++ (dispatch cbs (some m)).1).filter isFlagEv)
      = [mark_processing (.single uid)] ∧
    (∀ f : Flags, flagStep (mark_processing (.single uid)) f
      = Flags.mk true true) := by
  have hone : processOneMessage parse cbs uid raw
      = ([mark_processing (.single uid), .logInfo uid]
          ++ (dispatch cbs (some m)).1, some e) := by
    rcases hd : dispatch cbs (some m) with ⟨dtr, r⟩
    have hr2 : r = some e := by rw [hd] at hdisp; exact hdisp
    subst hr2
    rw [processOneMessage_some_eq parse cbs uid raw m hparse, hd]
  have hcons : processLoop parse cbs ((uid, raw) :: rest)
      = ([mark_processing (.single uid), .logInfo uid]
          ++ (dispatch cbs (some m)).1, some e) := by
    simp only [processLoop, hone]
  have hloop := processLoop_append_ok parse cbs pre tr hpre ((uid, raw) :: rest)
  rw [hcons] at hloop
  refine ⟨?_, ?_, fun f => rfl⟩
  · simp [process_messages, hr, hg, hloop, List.append_assoc]
  · rw [List.filter_append, dispatch_filter_flag_nil]
    simp [mark_processing, isFlagEv, List.filter]

/-- Witness for C2 (amended): two fetched messages, the callback raising on
the first: the cycle's trace stops at the failed dispatch and the exception
surfaces. -/
theorem mailbot_C2_callback_failure_aborts_cycle_witness :
    (process_messages none none (fun _ => 0) 0 (.ok [1, 2])
        (fun _ => .ok [(1, 7), (2, 8)]) (fun r => some r)
        [⟨fun _ => .error (.cbErr 3), fun _ => .ok ()⟩]).1
      = [mark_processing (UidArg.single 1), Ev.logInfo 1,
         Ev.cbCheck 0 (some 7)] ∧
    (process_messages none none (fun _ => 0) 0 (.ok [1, 2])
        (fun _ => .ok [(1, 7), (2, 8)]) (fun r => some r)
        [⟨fun _ => .error (.cbErr 3), fun _ => .ok ()⟩]).2
      = .error (.cbError (.cbErr 3)) := by
  have h := mailbot_C2_callback_failure_aborts_cycle none none (fun _ => 0) 0
      (.ok [1, 2]) (fun _ => .ok [(1, 7), (2, 8)]) (fun r => some r)
      [⟨fun _ => .error (.cbErr 3), fun _ => .ok ()⟩]
      [] [(2, 8)] 1 7 7 (.cbErr 3) [] [] [] [] rfl rfl rfl rfl rfl
  constructor
  · exact (congrArg Prod.fst h.1).trans (by decide)
  · exact congrArg Prod.snd h.1

end MailBot
